import Mathlib

/-!
Verification of the Office Hours relay server and client network manager
(`relay_server.py`, `network_manager.py`), shallowly embedded in Lean.
Bytes are `Nat`, byte strings are `List Nat`, Python dicts are association
lists with dict insert/lookup semantics, and socket handles are `Nat` ids.
-/

/-- Maximum frame payload size enforced by `recv_frame` (10 MiB),
from `relay_server.py` line 222. -/
def MAX_FRAME : Nat := 10 * 1024 * 1024

/-- `struct.pack('!I', n)`: 4-byte big-endian encoding of `n`
(faithful for `n < 2^32`, which `struct.pack` requires). -/
def pack4 (n : Nat) : List Nat :=
  [n / 16777216 % 256, n / 65536 % 256, n / 256 % 256, n % 256]

/-- `struct.unpack('!I', b)[0]` on a 4-byte string. -/
def unpack4 (b : List Nat) : Nat :=
  match b with
  | [b0, b1, b2, b3] => ((b0 * 256 + b1) * 256 + b2) * 256 + b3
  | _ => 0

/-- `recv_all(sock, n)` viewed on the byte stream `s`: exactly the next `n`
bytes plus the unread remainder, or `none` if the stream ends first
(the Python function returns `None` in that case). -/
def recv_all (n : Nat) (s : List Nat) : Option (List Nat × List Nat) :=
  if n ≤ s.length then some (s.take n, s.drop n) else none

/-- Outcome of `recv_frame`.  The Python function returns `None` both at end
of stream and for an oversized declared length, and every caller closes the
connection on `None`.  The embedding keeps the two `None` branches apart and
records the unread remainder of the stream, so that "no payload byte was
consumed" is expressible. -/
inductive FrameRead where
  | eof
  | tooLarge (rest : List Nat)
  | ok (payload rest : List Nat)
deriving DecidableEq

/-- `recv_frame(sock)` from `relay_server.py`: read a 4-byte big-endian
length prefix, reject a declared length over 10 MiB before reading any
payload byte, else read exactly that many payload bytes. -/
def recv_frame (s : List Nat) : FrameRead :=
  match recv_all 4 s with
  | none => .eof
  | some (hdr, rest) =>
    if MAX_FRAME < unpack4 hdr then .tooLarge rest
    else
      match recv_all (unpack4 hdr) rest with
      | none => .eof
      | some (p, rest2) => .ok p rest2

/-- `send_frame(sock, data)`: 4-byte big-endian length prefix followed by
the payload. -/
def send_frame (data : List Nat) : List Nat :=
  pack4 data.length ++ data

-- ── Python dict model (string-keyed association lists) ─────────────

/-- `d[k]` / `d.get(k)`: first entry with the given key, if any. -/
def dictLookup {α : Type} : List (String × α) → String → Option α
  | [], _ => none
  | (k, v) :: t, key => if k = key then some v else dictLookup t key

/-- Replace every entry keyed `k` by `(k, v)`, keeping positions. -/
def dictUpdate {α : Type} : List (String × α) → String → α → List (String × α)
  | [], _, _ => []
  | (k1, v1) :: t, k, v =>
    if k1 = k then (k, v) :: dictUpdate t k v else (k1, v1) :: dictUpdate t k v

/-- `d[k] = v`: overwrite the existing entry for `k` in place, or append a
new one (Python dict assignment). -/
def dictInsert {α : Type} (d : List (String × α)) (k : String) (v : α) :
    List (String × α) :=
  if (dictLookup d k).isSome then dictUpdate d k v else d ++ [(k, v)]

/-- `del d[k]`: remove every entry with key `k`. -/
def dictErase {α : Type} : List (String × α) → String → List (String × α)
  | [], _ => []
  | (k, v) :: t, key => if k = key then dictErase t key else (k, v) :: dictErase t key

-- ── ASCII uppercasing (Python `str.upper` on the ASCII range) ──────

/-- Uppercase one ASCII character (identity elsewhere). -/
def upChar (c : Char) : Char :=
  if 97 ≤ c.toNat ∧ c.toNat ≤ 122 then Char.ofNat (c.toNat - 32) else c

/-- Python `s.upper()` for the ASCII strings this protocol exchanges. -/
def asciiUpper (s : String) : String := ⟨s.data.map upChar⟩

-- ── Room registry (`relay_server.py`, `rooms` dict) ────────────────

/-- A registered UDP endpoint: the client's stream source IP plus the port
declared in its `UDP_REGISTER` message (`check.get("udp_port")`, which is
absent/`None` if the key is missing). -/
abbrev UdpEnd := String × Option Nat

/-- One entry of the `rooms` dict:
`{"clients": [...], "udp_addrs": [a0, a1], "created": t}`.
Connection handles are `Nat` ids; `created` is an integer timestamp. -/
structure Room where
  clients : List Nat
  udp_addrs : Option UdpEnd × Option UdpEnd
  created : Nat
deriving DecidableEq

/-- The room registry: `rooms` is a dict from room code to `Room`. -/
abbrev Rooms := List (String × Room)

/-- The alphabet of `random.choices(string.ascii_uppercase + string.digits)`. -/
def codeAlphabet : List Char := "ABCDEFGHIJKLMNOPQRSTUVWXYZ0123456789".data

/-- `generate_room_code()`: `"OH-"` plus 4 characters chosen from the
36-character alphabet; the random choices are the four `Fin 36` inputs. -/
def generate_room_code (a b c d : Fin 36) : String :=
  "OH-" ++ ⟨[codeAlphabet.getD a 'A', codeAlphabet.getD b 'A',
             codeAlphabet.getD c 'A', codeAlphabet.getD d 'A']⟩

/-- Decidable check for the spec's pattern `OH-[A-Z0-9]{4}`. -/
def isAZ09 (c : Char) : Bool :=
  ('A' ≤ c && c ≤ 'Z') || ('0' ≤ c && c ≤ '9')

/-- A string matches `OH-[A-Z0-9]{4}`: length 7, prefix `"OH-"`, and four
uppercase-alphanumeric characters. -/
def matchesRoomCode (s : String) : Bool :=
  s.data.length == 7 && s.data.take 3 == "OH-".data && (s.data.drop 3).all isAZ09

/-- The `CREATE_ROOM` branch of `handle_room_client` (lines 261-271):
generate a code and insert a one-member room, with no collision check —
`rooms[room_code] = {...}` overwrites any room already holding that code. -/
def createRoomAction (rs : Rooms) (a b c d : Fin 36) (client now : Nat) :
    Rooms × String :=
  let code := generate_room_code a b c d
  (dictInsert rs code ⟨[client], (none, none), now⟩, code)

/-- Result of the `JOIN_ROOM` branch, as reported to the joiner. -/
inductive JoinResult where
  | notFound
  | full
  | paired (peer : Nat)
  | waiting
deriving DecidableEq

/-- The `JOIN_ROOM` branch of `handle_room_client` (lines 293-311):
uppercase the supplied code, reject an unknown code or a room that already
has 2 members, else append the joiner; the second member pairs with
`clients[0]`, a first member waits. -/
def joinRoom (rs : Rooms) (rawCode : String) (client : Nat) : Rooms × JoinResult :=
  let code := asciiUpper rawCode
  match dictLookup rs code with
  | none => (rs, .notFound)
  | some room =>
    if 2 ≤ room.clients.length then (rs, .full)
    else
      let clients2 := room.clients ++ [client]
      let rs2 := dictInsert rs code { room with clients := clients2 }
      if clients2.length = 2 then (rs2, .paired (clients2.headD client))
      else (rs2, .waiting)

/-- Write UDP endpoint slot `i` of a room's slot pair (the assignment
`rooms[room_code]["udp_addrs"][my_index] = ...`). -/
def setSlot (slots : Option UdpEnd × Option UdpEnd) (i : Fin 2) (e : UdpEnd) :
    Option UdpEnd × Option UdpEnd :=
  if i = 0 then (some e, slots.2) else (slots.1, some e)

/-- The `UDP_REGISTER` state update in the relay loop (lines 356-358): if
the room still exists, store `(client_addr[0], udp_port)` in the sender's
slot; otherwise do nothing. -/
def udpRegisterUpdate (rs : Rooms) (code : String) (i : Fin 2) (ip : String)
    (port? : Option Nat) : Rooms :=
  match dictLookup rs code with
  | some room => dictInsert rs code { room with udp_addrs := setSlot room.udp_addrs i (ip, port?) }
  | none => rs

/-- `cleanup_stale_rooms`: drop every room older than `maxAge` seconds that
still has fewer than 2 members. -/
def sweepRooms : Rooms → Nat → Nat → Rooms
  | [], _, _ => []
  | (c, r) :: t, now, maxAge =>
    if maxAge < now - r.created ∧ r.clients.length < 2 then sweepRooms t now maxAge
    else (c, r) :: sweepRooms t now maxAge

/-- The registry operations the server performs, for the reachability
invariant: `CREATE_ROOM`, the `CONNECT_TO` pre-creation of an empty room,
`JOIN_ROOM`, room deletion (disconnect or pairing timeout), the stale-room
sweep, and the `UDP_REGISTER` slot update. -/
inductive RegOp where
  | create (code : String) (client now : Nat)
  | preCreate (code : String) (now : Nat)
  | join (rawCode : String) (client : Nat)
  | delete (code : String)
  | sweep (now maxAge : Nat)
  | udpRegister (code : String) (i : Fin 2) (ip : String) (port? : Option Nat)

/-- Effect of one registry operation on the `rooms` dict. -/
def applyOp (rs : Rooms) : RegOp → Rooms
  | .create code client now => dictInsert rs code ⟨[client], (none, none), now⟩
  | .preCreate code now => dictInsert rs code ⟨[], (none, none), now⟩
  | .join rawCode client => (joinRoom rs rawCode client).1
  | .delete code => dictErase rs code
  | .sweep now maxAge => sweepRooms rs now maxAge
  | .udpRegister code i ip port? => udpRegisterUpdate rs code i ip port?

/-- The registry reached by a sequence of operations from the empty dict. -/
def runOps (ops : List RegOp) : Rooms := ops.foldl applyOp []

/-- The member-count invariant: no room ever holds more than 2 members. -/
def memberBound (rs : Rooms) : Prop := ∀ p ∈ rs, p.2.clients.length ≤ 2

-- ── Presence directory (`relay_server.py`, `presence` dict) ────────

/-- One entry of the `presence` dict:
`{"name": ..., "mode": ..., "sock": ..., "addr": ...}`. -/
structure UserInfo where
  name : String
  mode : String
  sock : Nat
  addr : String × Nat
deriving DecidableEq

/-- The presence directory: a dict from `user_id` to `UserInfo`. -/
abbrev Presence := List (String × UserInfo)

/-- The keyed-map view of a parsed JSON control message: each field is the
result of `msg.get(...)` (absent key gives `none`). -/
structure MsgView where
  action? : Option String
  type? : Option String
  udpPort? : Option Nat
  userId? : Option String
  name? : Option String
  mode? : Option String
  room? : Option String
  targetId? : Option String
deriving DecidableEq

/-- An `MsgView` with every field absent; concrete messages override fields. -/
def emptyMsg : MsgView := ⟨none, none, none, none, none, none, none, none⟩

/-- The `REGISTER` branch (`handle_presence_client` lines 82-97 and the
identical inline copy in `handle_client` lines 423-440): default a missing
`user_id` to `"unknown"`, a missing `name` to `"Unknown"`, a missing `mode`
to `"GREEN"`, then overwrite the directory entry for that id.  Returns the
new directory and the `user_id` echoed in the `registered` reply. -/
def registerOp (pres : Presence) (m : MsgView) (sock : Nat) (addr : String × Nat) :
    Presence × String :=
  let uid := m.userId?.getD "unknown"
  let name := m.name?.getD "Unknown"
  let mode := m.mode?.getD "GREEN"
  (dictInsert pres uid ⟨name, mode, sock, addr⟩, uid)

/-- Outcome of the `CONNECT_TO` branch. -/
inductive ConnectToResult where
  | roomCreated (code : String)
  | errorUserNotFound
deriving DecidableEq

/-- The `CONNECT_TO` branch (`handle_presence_client` lines 107-143): look
the target up in the presence directory (`presence.get(target_id)`); if
present, pre-create an empty room and notify both parties; if absent or
offline, reply `ERROR "User not found or offline"` with no state change. -/
def connectToOp (pres : Presence) (rs : Rooms) (targetId? : Option String)
    (a b c d : Fin 36) (now : Nat) : Presence × Rooms × ConnectToResult :=
  match targetId?.bind (fun t => dictLookup pres t) with
  | some _ =>
    let code := generate_room_code a b c d
    (pres, dictInsert rs code ⟨[], (none, none), now⟩, .roomCreated code)
  | none => (pres, rs, .errorUserNotFound)

-- ── TCP relay loop and UDP relay (`relay_server.py`) ───────────────

/-- A frame received on a room control connection: the raw bytes together
with the outcome of the `json.loads` attempt on them (`none` when the
bytes do not parse). -/
structure TcpFrame where
  raw : List Nat
  parsed : Option MsgView
deriving DecidableEq

/-- One iteration of the post-pairing relay loop (`handle_room_client`
lines 345-367): a frame that parses as `UDP_REGISTER` updates only the
sender's UDP slot and is not forwarded; every other frame is forwarded
verbatim to the peer.  Returns the new registry and the forwarded frame,
if any. -/
def relayStep (rs : Rooms) (code : String) (i : Fin 2) (clientIp : String)
    (f : TcpFrame) : Rooms × Option TcpFrame :=
  match f.parsed with
  | some m =>
    if m.type? = some "UDP_REGISTER" then
      (udpRegisterUpdate rs code i clientIp m.udpPort?, none)
    else (rs, some f)
  | none => (rs, some f)

/-- Does a UDP slot equal the datagram source address?  Python compares the
stored tuple with `recvfrom`'s `(ip, port)`, so a slot whose port is absent
(`None`) never matches. -/
def slotMatches (s : Option UdpEnd) (a : String × Nat) : Bool :=
  match s with
  | some e => e.1 == a.1 && e.2 == some a.2
  | none => false

/-- The bytes of the NAT-punch token `b"HELLO"`. -/
def helloToken : List Nat := [72, 69, 76, 76, 79]

/-- One datagram through `udp_relay_loop` (lines 385-402): scan the rooms
in order; at the first room one of whose slots equals the source address,
forward the data verbatim to the other slot if it is populated, else drop;
if no room matches, drop.  The payload is never inspected. -/
def udpRelayStep : Rooms → List Nat → String × Nat → Option (UdpEnd × List Nat)
  | [], _, _ => none
  | (_, room) :: rest, data, addr =>
    if slotMatches room.udp_addrs.1 addr then
      match room.udp_addrs.2 with
      | some e => some (e, data)
      | none => none
    else if slotMatches room.udp_addrs.2 addr then
      match room.udp_addrs.1 with
      | some e => some (e, data)
      | none => none
    else udpRelayStep rest data addr

/-- The client-side relay-UDP receive step (`_listen_relay_udp`,
`network_manager.py` lines 231-246): a datagram equal to `b"HELLO"` is
skipped; any other datagram is handed to the audio callback. -/
def listenRelayUdpStep (data : List Nat) : Option (List Nat) :=
  if data = helloToken then none else some data

-- ── Client connection manager (`network_manager.py`) ───────────────

/-- The client state the direct-mode claims are about: the `connected` and
`relay_mode` flags and the recorded peer IP. -/
structure NMState where
  connected : Bool
  relay_mode : Bool
  peer_ip : Option String
deriving DecidableEq

/-- The fields as `NetworkManager.__init__` leaves them. -/
def initNM : NMState := ⟨false, false, none⟩

/-- `NetworkManager.connect(ip)` (lines 64-80): skip if already connected;
otherwise open the stream socket (`dialOk` is whether `socket.connect`
succeeded) and, on success, set `connected = True` at once — no control
exchange of any kind occurs in this function. -/
def NM_connect (st : NMState) (ip : String) (dialOk : Bool) : NMState × Bool :=
  if st.connected then (st, true)
  else if dialOk then
    ({ st with connected := true, relay_mode := false, peer_ip := some ip }, true)
  else (st, false)

/-- One accepted inbound connection in `NetworkManager._accept_tcp`
(lines 323-348): reject (close) the dial if already connected, otherwise
mark the manager connected immediately. -/
def NM_accept_tcp (st : NMState) (peerIp : String) : NMState × Bool :=
  if st.connected then (st, false)
  else ({ st with connected := true, relay_mode := false, peer_ip := some peerIp }, true)

-- ── Front-door router (`handle_client`, lines 406-462) ─────────────

/-- What the router does with a connection's first frame. -/
inductive RouteResult where
  | closedSilently
  | toPresence (uid : String)
  | toRoom
  | errorReply (action? : Option String)
deriving DecidableEq

/-- `true` exactly on the `errorReply` outcome. -/
def RouteResult.isErrorReply : RouteResult → Bool
  | .errorReply _ => true
  | _ => false

/-- `handle_client` on a connection's first frame: an unparseable frame is
closed with no reply; `REGISTER` is handled inline (presence insert);
`CREATE_ROOM`/`JOIN_ROOM` are delegated to the room handler; any other
action gets an `error` status frame and the connection is closed. -/
def handle_client_step (pres : Presence) (rs : Rooms) (sock : Nat)
    (addr : String × Nat) (f : TcpFrame) : Presence × Rooms × RouteResult :=
  match f.parsed with
  | none => (pres, rs, .closedSilently)
  | some m =>
    if m.action? = some "REGISTER" then
      let (pres2, uid) := registerOp pres m sock addr
      (pres2, rs, .toPresence uid)
    else if m.action? = some "CREATE_ROOM" ∨ m.action? = some "JOIN_ROOM" then
      (pres, rs, .toRoom)
    else (pres, rs, .errorReply m.action?)

-- ── Concrete fixtures used by witness theorems ─────────────────────

/-- A paired room with both UDP slots registered. -/
def roomBothSlots : Room :=
  ⟨[1, 2], (some ("1.1.1.1", some 10), some ("2.2.2.2", some 20)), 0⟩

/-- A paired room where only member 0's UDP slot is registered. -/
def roomOneSlot : Room :=
  ⟨[1, 2], (some ("1.1.1.1", some 10), none), 0⟩

/-- The parsed view of a `UDP_REGISTER` control message declaring port 777. -/
def regMsg777 : MsgView :=
  ⟨none, some "UDP_REGISTER", some 777, none, none, none, none, none⟩

/-- A frame carrying `regMsg777`. -/
def regFrame777 : TcpFrame := ⟨[123], some regMsg777⟩

-- ── Framing lemmas ─────────────────────────────────────────────────

theorem unpack4_pack4 (n : Nat) (h : n < 4294967296) : unpack4 (pack4 n) = n := by
  simp only [pack4, unpack4]
  omega

theorem pack4_length (n : Nat) : (pack4 n).length = 4 := by
  simp [pack4]

theorem recv_all_append (a t : List Nat) : recv_all a.length (a ++ t) = some (a, t) := by
  simp [recv_all]

theorem recv_all_of_length (n : Nat) (a t : List Nat) (h : a.length = n) :
    recv_all n (a ++ t) = some (a, t) := by
  subst h; exact recv_all_append a t

/-- C1 (claim theorem). For every payload of length at most the 10 MiB
maximum, decoding a frame produced by `send_frame` returns exactly that
payload with the rest of the stream untouched (round trip, empty payload
included); and for every frame whose 4-byte big-endian length prefix
declares a length greater than 10 MiB, `recv_frame` rejects the frame with
none of the payload bytes consumed (the caller then closes the
connection). -/
theorem C1_frame_roundtrip_and_size_limit :
    (∀ payload rest : List Nat, payload.length ≤ MAX_FRAME →
        recv_frame (send_frame payload ++ rest) = .ok payload rest) ∧
    (∀ hdr body : List Nat, hdr.length = 4 → MAX_FRAME < unpack4 hdr →
        recv_frame (hdr ++ body) = .tooLarge body) := by
  constructor
  · intro payload rest hle
    have hlt : payload.length < 4294967296 := by
      have : MAX_FRAME < 4294967296 := by decide
      omega
    have h4 : recv_all 4 (pack4 payload.length ++ (payload ++ rest))
        = some (pack4 payload.length, payload ++ rest) :=
      recv_all_of_length 4 _ _ (pack4_length _)
    simp only [recv_frame, send_frame, List.append_assoc, h4]
    rw [unpack4_pack4 _ hlt]
    have hnot : ¬ MAX_FRAME < payload.length := by omega
    simp only [if_neg hnot, recv_all_append]
  · intro hdr body h4 hbig
    have hrecv : recv_all 4 (hdr ++ body) = some (hdr, body) :=
      recv_all_of_length 4 _ _ h4
    simp only [recv_frame, hrecv, if_pos hbig]

/-- C1 witness: the round trip at payload `[7]` with trailing stream `[9]`,
and rejection of a frame declaring length 10 MiB + 1 with its single payload
byte left unread. -/
theorem C1_frame_witness :
    recv_frame (send_frame [7] ++ [9]) = .ok [7] [9] ∧
    recv_frame (pack4 (MAX_FRAME + 1) ++ [3]) = .tooLarge [3] :=
  ⟨C1_frame_roundtrip_and_size_limit.1 [7] [9] (by decide),
   C1_frame_roundtrip_and_size_limit.2 (pack4 (MAX_FRAME + 1)) [3]
     (pack4_length _) (by decide)⟩

-- ── Dictionary lemmas ──────────────────────────────────────────────

theorem dictLookup_dictUpdate_self {α : Type} (d : List (String × α)) (k : String) (v : α)
    (h : (dictLookup d k).isSome) :
    dictLookup (dictUpdate d k v) k = some v := by
  induction d with
  | nil => simp [dictLookup] at h
  | cons p t ih =>
    obtain ⟨k1, v1⟩ := p
    by_cases hk : k1 = k
    · simp [dictUpdate, hk, dictLookup]
    · simp only [dictLookup, if_neg hk] at h
      simp only [dictUpdate, if_neg hk, dictLookup, if_neg hk]
      exact ih h

theorem dictLookup_append_right {α : Type} (d : List (String × α)) (k : String) (v : α)
    (h : dictLookup d k = none) :
    dictLookup (d ++ [(k, v)]) k = some v := by
  induction d with
  | nil => simp [dictLookup]
  | cons p t ih =>
    obtain ⟨k1, v1⟩ := p
    by_cases hk : k1 = k
    · simp [dictLookup, hk] at h
    · simp only [dictLookup, if_neg hk] at h
      simp only [List.cons_append, dictLookup, if_neg hk]
      exact ih h

theorem dictLookup_dictInsert_self {α : Type} (d : List (String × α)) (k : String) (v : α) :
    dictLookup (dictInsert d k v) k = some v := by
  unfold dictInsert
  by_cases h : (dictLookup d k).isSome
  · rw [if_pos h]; exact dictLookup_dictUpdate_self d k v h
  · rw [if_neg h]
    exact dictLookup_append_right d k v (Option.not_isSome_iff_eq_none.1 h)

theorem dictLookup_dictUpdate_ne {α : Type} (d : List (String × α)) (k k' : String) (v : α)
    (h : k' ≠ k) :
    dictLookup (dictUpdate d k v) k' = dictLookup d k' := by
  induction d with
  | nil => simp [dictUpdate]
  | cons p t ih =>
    obtain ⟨k1, v1⟩ := p
    by_cases hk : k1 = k
    · subst hk
      simp only [dictUpdate, if_pos rfl, dictLookup, if_neg (Ne.symm h)]
      exact ih
    · simp only [dictUpdate, if_neg hk, dictLookup]
      by_cases hk' : k1 = k'
      · rw [if_pos hk', if_pos hk']
      · rw [if_neg hk', if_neg hk']; exact ih

theorem dictLookup_append_right_ne {α : Type} (d : List (String × α)) (k k' : String) (v : α)
    (h : k' ≠ k) :
    dictLookup (d ++ [(k, v)]) k' = dictLookup d k' := by
  induction d with
  | nil => simp only [List.nil_append, dictLookup, if_neg (Ne.symm h)]
  | cons p t ih =>
    obtain ⟨k1, v1⟩ := p
    simp only [List.cons_append, dictLookup]
    by_cases hk' : k1 = k'
    · rw [if_pos hk', if_pos hk']
    · rw [if_neg hk', if_neg hk']; exact ih

theorem dictLookup_dictInsert_ne {α : Type} (d : List (String × α)) (k k' : String) (v : α)
    (h : k' ≠ k) : dictLookup (dictInsert d k v) k' = dictLookup d k' := by
  unfold dictInsert
  by_cases hs : (dictLookup d k).isSome
  · rw [if_pos hs]; exact dictLookup_dictUpdate_ne d k k' v h
  · rw [if_neg hs]; exact dictLookup_append_right_ne d k k' v h

theorem mem_of_dictUpdate {α : Type} (d : List (String × α)) (k : String) (v : α)
    (p : String × α) (hp : p ∈ dictUpdate d k v) : p = (k, v) ∨ p ∈ d := by
  induction d with
  | nil => simp [dictUpdate] at hp
  | cons q t ih =>
    obtain ⟨k1, v1⟩ := q
    by_cases hk : k1 = k
    · simp only [dictUpdate, if_pos hk] at hp
      rcases List.mem_cons.1 hp with h1 | h1
      · left; exact h1
      · rcases ih h1 with h2 | h2
        · left; exact h2
        · right; exact List.mem_cons_of_mem _ h2
    · simp only [dictUpdate, if_neg hk] at hp
      rcases List.mem_cons.1 hp with h1 | h1
      · right; exact h1 ▸ List.mem_cons_self _ _
      · rcases ih h1 with h2 | h2
        · left; exact h2
        · right; exact List.mem_cons_of_mem _ h2

theorem mem_dictInsert {α : Type} (d : List (String × α)) (k : String) (v : α)
    (p : String × α) (hp : p ∈ dictInsert d k v) : p = (k, v) ∨ p ∈ d := by
  unfold dictInsert at hp
  by_cases hs : (dictLookup d k).isSome
  · rw [if_pos hs] at hp
    exact mem_of_dictUpdate d k v p hp
  · rw [if_neg hs] at hp
    rcases List.mem_append.1 hp with h1 | h1
    · right; exact h1
    · left; simpa using h1

theorem mem_of_dictLookup {α : Type} (d : List (String × α)) (k : String) (v : α)
    (h : dictLookup d k = some v) : (k, v) ∈ d := by
  induction d with
  | nil => simp [dictLookup] at h
  | cons p t ih =>
    obtain ⟨k1, v1⟩ := p
    by_cases hk : k1 = k
    · subst hk
      simp [dictLookup] at h
      subst h; exact List.mem_cons_self _ _
    · simp only [dictLookup, if_neg hk] at h
      exact List.mem_cons_of_mem _ (ih h)

theorem mem_of_dictErase {α : Type} (d : List (String × α)) (k : String)
    (p : String × α) (hp : p ∈ dictErase d k) : p ∈ d := by
  induction d with
  | nil => simp [dictErase] at hp
  | cons q t ih =>
    obtain ⟨k1, v1⟩ := q
    by_cases hk : k1 = k
    · simp only [dictErase, if_pos hk] at hp
      exact List.mem_cons_of_mem _ (ih hp)
    · simp only [dictErase, if_neg hk] at hp
      rcases List.mem_cons.1 hp with h1 | h1
      · exact h1 ▸ List.mem_cons_self _ _
      · exact List.mem_cons_of_mem _ (ih h1)

theorem mem_of_sweepRooms (rs : Rooms) (now maxAge : Nat) (p : String × Room)
    (hp : p ∈ sweepRooms rs now maxAge) : p ∈ rs := by
  induction rs with
  | nil => simp [sweepRooms] at hp
  | cons q t ih =>
    obtain ⟨k1, r1⟩ := q
    by_cases hc : maxAge < now - r1.created ∧ r1.clients.length < 2
    · simp only [sweepRooms, if_pos hc] at hp
      exact List.mem_cons_of_mem _ (ih hp)
    · simp only [sweepRooms, if_neg hc] at hp
      rcases List.mem_cons.1 hp with h1 | h1
      · exact h1 ▸ List.mem_cons_self _ _
      · exact List.mem_cons_of_mem _ (ih h1)

-- ── ASCII uppercase lemmas ─────────────────────────────────────────

theorem upChar_idem (c : Char) : upChar (upChar c) = upChar c := by
  by_cases h : 97 ≤ c.toNat ∧ c.toNat ≤ 122
  · have hup : upChar c = Char.ofNat (c.toNat - 32) := by unfold upChar; rw [if_pos h]
    rw [hup]
    have h1 := h.1
    have h2 := h.2
    revert h1 h2
    generalize c.toNat = n
    intro h1 h2
    interval_cases n <;> decide
  · have hup : upChar c = c := by unfold upChar; rw [if_neg h]
    rw [hup, hup]

theorem asciiUpper_idem (s : String) : asciiUpper (asciiUpper s) = asciiUpper s := by
  show String.mk ((s.data.map upChar).map upChar) = String.mk (s.data.map upChar)
  rw [List.map_map]
  exact congrArg String.mk (List.map_congr_left (fun a _ => upChar_idem a))

-- ── joinRoom characterization ──────────────────────────────────────

theorem joinRoom_notFound (rs : Rooms) (raw : String) (c : Nat)
    (h : dictLookup rs (asciiUpper raw) = none) :
    joinRoom rs raw c = (rs, .notFound) := by
  simp [joinRoom, h]

theorem joinRoom_full (rs : Rooms) (raw : String) (c : Nat) (room : Room)
    (h : dictLookup rs (asciiUpper raw) = some room)
    (h2 : 2 ≤ room.clients.length) :
    joinRoom rs raw c = (rs, .full) := by
  simp [joinRoom, h, h2]

theorem joinRoom_append (rs : Rooms) (raw : String) (c : Nat) (room : Room)
    (h : dictLookup rs (asciiUpper raw) = some room)
    (h2 : room.clients.length < 2) :
    (joinRoom rs raw c).1
      = dictInsert rs (asciiUpper raw) { room with clients := room.clients ++ [c] } := by
  simp only [joinRoom, h]
  rw [if_neg (by omega : ¬ 2 ≤ room.clients.length)]
  split <;> rfl

theorem joinRoom_snd_of_lt (rs : Rooms) (raw : String) (c : Nat) (room : Room)
    (h : dictLookup rs (asciiUpper raw) = some room)
    (h2 : room.clients.length < 2) :
    (joinRoom rs raw c).2 ≠ .notFound ∧ (joinRoom rs raw c).2 ≠ .full := by
  simp only [joinRoom, h]
  rw [if_neg (by omega : ¬ 2 ≤ room.clients.length)]
  split <;> simp

-- ── Member-bound invariant ─────────────────────────────────────────

theorem memberBound_dictInsert (rs : Rooms) (k : String) (r : Room)
    (hb : memberBound rs) (hr : r.clients.length ≤ 2) :
    memberBound (dictInsert rs k r) := by
  intro p hp
  rcases mem_dictInsert rs k r p hp with h | h
  · rw [h]; exact hr
  · exact hb p h

theorem memberBound_applyOp (rs : Rooms) (op : RegOp) (hb : memberBound rs) :
    memberBound (applyOp rs op) := by
  cases op with
  | create code client now =>
    exact memberBound_dictInsert _ _ _ hb (by simp)
  | preCreate code now =>
    exact memberBound_dictInsert _ _ _ hb (by simp)
  | join rawCode client =>
    show memberBound (joinRoom rs rawCode client).1
    cases hL : dictLookup rs (asciiUpper rawCode) with
    | none => rw [joinRoom_notFound rs rawCode client hL]; exact hb
    | some room =>
      by_cases h2 : 2 ≤ room.clients.length
      · rw [joinRoom_full rs rawCode client room hL h2]; exact hb
      · rw [joinRoom_append rs rawCode client room hL (by omega)]
        exact memberBound_dictInsert _ _ _ hb (by simp; omega)
  | delete code =>
    intro p hp; exact hb p (mem_of_dictErase rs code p hp)
  | sweep now maxAge =>
    intro p hp; exact hb p (mem_of_sweepRooms rs now maxAge p hp)
  | udpRegister code i ip port? =>
    show memberBound (udpRegisterUpdate rs code i ip port?)
    unfold udpRegisterUpdate
    cases hL : dictLookup rs code with
    | none => exact hb
    | some room =>
      have hm : (code, room) ∈ rs := mem_of_dictLookup rs code room hL
      exact memberBound_dictInsert _ _ _ hb (hb _ hm)

theorem memberBound_foldl (ops : List RegOp) :
    ∀ rs, memberBound rs → memberBound (ops.foldl applyOp rs) := by
  induction ops with
  | nil => intro rs hb; exact hb
  | cons op t ih => intro rs hb; exact ih _ (memberBound_applyOp rs op hb)

/-- C2 (claim theorem). Every registry state reachable from the empty
registry by any sequence of operations (room creation, the `CONNECT_TO`
pre-creation, joins including the pairing join, deletion on disconnect or
timeout, the stale-room sweep, and `UDP_REGISTER` slot updates) keeps every
room at 2 members or fewer; and a `JOIN_ROOM` against a room that already
has 2 members returns the "Room is full" error with the registry
unchanged — nothing is appended. -/
theorem C2_room_member_bound :
    (∀ ops : List RegOp, memberBound (runOps ops)) ∧
    (∀ (rs : Rooms) (raw : String) (c : Nat) (room : Room),
        dictLookup rs (asciiUpper raw) = some room → 2 ≤ room.clients.length →
        joinRoom rs raw c = (rs, .full)) := by
  constructor
  · intro ops
    exact memberBound_foldl ops [] (by intro p hp; simp at hp)
  · intro rs raw c room h h2
    exact joinRoom_full rs raw c room h h2

/-- C2 witness: a create-then-join run keeps the bound, and joining the
resulting 2-member room is rejected without any state change. -/
theorem C2_room_member_bound_witness :
    memberBound (runOps [.create "OH-AB12" 1 0, .join "oh-ab12" 2]) ∧
    joinRoom [("OH-AB12", ⟨[1, 2], (none, none), 0⟩)] "oh-ab12" 3
      = ([("OH-AB12", ⟨[1, 2], (none, none), 0⟩)], .full) :=
  ⟨C2_room_member_bound.1 _,
   C2_room_member_bound.2 [("OH-AB12", ⟨[1, 2], (none, none), 0⟩)] "oh-ab12" 3
     ⟨[1, 2], (none, none), 0⟩ (by decide) (by decide)⟩

-- ── C5: room code format; uniqueness is not enforced ───────────────

theorem isAZ09_alphabet : ∀ i : Fin 36, isAZ09 (codeAlphabet.getD i 'A') = true := by
  decide

/-- C5 counterexample: the claim says a code returned by CREATE is unique
among the currently-open rooms at insertion.  With a registry already
holding `"OH-AAAA"` and the random choices all picking index 0, CREATE
returns `"OH-AAAA"` — a code that is already open — and the insertion
overwrites the existing room (the original one-member room is gone). -/
theorem C5_room_code_counterexample :
    (createRoomAction [("OH-AAAA", ⟨[1], (none, none), 5⟩)] 0 0 0 0 7 100).2 = "OH-AAAA" ∧
    (dictLookup [("OH-AAAA", (⟨[1], (none, none), 5⟩ : Room))] "OH-AAAA").isSome = true ∧
    dictLookup (createRoomAction [("OH-AAAA", ⟨[1], (none, none), 5⟩)] 0 0 0 0 7 100).1
        "OH-AAAA" ≠ some ⟨[1], (none, none), 5⟩ := by
  decide

/-- C5 (amended claim theorem). Every generated room code matches
`OH-[A-Z0-9]{4}`; uniqueness among open rooms is not checked — a CREATE
whose generated code collides with an open room silently overwrites it, so
after any CREATE the code maps to the fresh one-member room regardless of
what was there before. -/
theorem C5_room_code_format_and_overwrite :
    (∀ a b c d : Fin 36, matchesRoomCode (generate_room_code a b c d) = true) ∧
    (∀ (rs : Rooms) (a b c d : Fin 36) (client now : Nat),
        dictLookup (createRoomAction rs a b c d client now).1
            (createRoomAction rs a b c d client now).2
          = some ⟨[client], (none, none), now⟩) := by
  constructor
  · intro a b c d
    have ha := isAZ09_alphabet a
    have hb := isAZ09_alphabet b
    have hc := isAZ09_alphabet c
    have hd := isAZ09_alphabet d
    simp only [List.getD_eq_getElem?_getD] at ha hb hc hd
    have hdata : (generate_room_code a b c d).data
        = ['O', 'H', '-', codeAlphabet.getD a 'A', codeAlphabet.getD b 'A',
           codeAlphabet.getD c 'A', codeAlphabet.getD d 'A'] := rfl
    unfold matchesRoomCode
    rw [hdata]
    simp [ha, hb, hc, hd]
  · intro rs a b c d client now
    exact dictLookup_dictInsert_self rs (generate_room_code a b c d) _

-- ── C6: capacity/state errors have no side effects ─────────────────

/-- C6 (claim theorem). The three capacity/state errors — `JOIN_ROOM` with
an unknown code, `JOIN_ROOM` on a full room, and `CONNECT_TO` naming a
target absent from the presence directory — each report an error result to
the requester and return the shared state (presence directory and the whole
room registry, hence every room's members and UDP slots) exactly as it
was. -/
theorem C6_error_paths_leave_state_unchanged :
    (∀ (rs : Rooms) (raw : String) (c : Nat),
        dictLookup rs (asciiUpper raw) = none →
        joinRoom rs raw c = (rs, .notFound)) ∧
    (∀ (rs : Rooms) (raw : String) (c : Nat) (room : Room),
        dictLookup rs (asciiUpper raw) = some room → 2 ≤ room.clients.length →
        joinRoom rs raw c = (rs, .full)) ∧
    (∀ (pres : Presence) (rs : Rooms) (tid : Option String) (a b c d : Fin 36) (now : Nat),
        tid.bind (fun t => dictLookup pres t) = none →
        connectToOp pres rs tid a b c d now = (pres, rs, .errorUserNotFound)) := by
  refine ⟨fun rs raw c h => joinRoom_notFound rs raw c h,
          fun rs raw c room h h2 => joinRoom_full rs raw c room h h2,
          fun pres rs tid a b c d now h => ?_⟩
  unfold connectToOp
  rw [h]

/-- C6 witness: the three error paths at concrete inputs — unknown code on
an empty registry, a full room, and a `CONNECT_TO` whose target is not
registered. -/
theorem C6_error_paths_witness :
    joinRoom [] "OH-QQQQ" 1 = ([], .notFound) ∧
    joinRoom [("OH-AB12", ⟨[1, 2], (none, none), 0⟩)] "OH-AB12" 3
      = ([("OH-AB12", ⟨[1, 2], (none, none), 0⟩)], .full) ∧
    connectToOp [] [] (some "u1") 0 0 0 0 9 = ([], [], .errorUserNotFound) :=
  ⟨C6_error_paths_leave_state_unchanged.1 [] "OH-QQQQ" 1 (by decide),
   C6_error_paths_leave_state_unchanged.2.1 [("OH-AB12", ⟨[1, 2], (none, none), 0⟩)]
     "OH-AB12" 3 ⟨[1, 2], (none, none), 0⟩ (by decide) (by decide),
   C6_error_paths_leave_state_unchanged.2.2 [] [] (some "u1") 0 0 0 0 9 (by decide)⟩

-- ── C9: JOIN_ROOM is case-insensitive ──────────────────────────────

/-- C9 (claim theorem). The server uppercases the supplied room code before
the registry lookup, so `JOIN_ROOM` with any string behaves identically to
`JOIN_ROOM` with its uppercased form; and joining a non-full room whose
(uppercase) code is registered succeeds — no "not found" or "full" error —
appending the joiner, whatever case the joiner typed. -/
theorem C9_join_room_case_insensitive :
    (∀ (rs : Rooms) (raw : String) (c : Nat),
        joinRoom rs raw c = joinRoom rs (asciiUpper raw) c) ∧
    (∀ (rs : Rooms) (raw : String) (c : Nat) (room : Room),
        dictLookup rs (asciiUpper raw) = some room → room.clients.length < 2 →
        (joinRoom rs raw c).2 ≠ .notFound ∧ (joinRoom rs raw c).2 ≠ .full ∧
        dictLookup (joinRoom rs raw c).1 (asciiUpper raw)
          = some { room with clients := room.clients ++ [c] }) := by
  constructor
  · intro rs raw c
    simp only [joinRoom, asciiUpper_idem]
  · intro rs raw c room h h2
    refine ⟨(joinRoom_snd_of_lt rs raw c room h h2).1,
            (joinRoom_snd_of_lt rs raw c room h h2).2, ?_⟩
    rw [joinRoom_append rs raw c room h h2]
    exact dictLookup_dictInsert_self rs (asciiUpper raw) _

/-- C9 witness: joining `"OH-AB12"` typed as `"oh-ab12"` pairs with the
waiting creator and records the joiner. -/
theorem C9_join_room_witness :
    joinRoom [("OH-AB12", ⟨[1], (none, none), 0⟩)] "oh-ab12" 2
      = joinRoom [("OH-AB12", ⟨[1], (none, none), 0⟩)] (asciiUpper "oh-ab12") 2 ∧
    ((joinRoom [("OH-AB12", ⟨[1], (none, none), 0⟩)] "oh-ab12" 2).2 ≠ .notFound ∧
     (joinRoom [("OH-AB12", ⟨[1], (none, none), 0⟩)] "oh-ab12" 2).2 ≠ .full ∧
     dictLookup (joinRoom [("OH-AB12", ⟨[1], (none, none), 0⟩)] "oh-ab12" 2).1
         (asciiUpper "oh-ab12") = some ⟨[1, 2], (none, none), 0⟩) :=
  ⟨C9_join_room_case_insensitive.1 [("OH-AB12", ⟨[1], (none, none), 0⟩)] "oh-ab12" 2,
   C9_join_room_case_insensitive.2 [("OH-AB12", ⟨[1], (none, none), 0⟩)] "oh-ab12" 2
     ⟨[1], (none, none), 0⟩ (by decide) (by decide)⟩

-- ── C10: REGISTER defaults and last-register-wins on "unknown" ─────

/-- C10 (claim theorem). A `REGISTER` with missing fields is accepted: the
echoed `user_id` defaults to `"unknown"`, the stored name to `"Unknown"`
and the stored mode to `"GREEN"`; and when two clients both register
without a `user_id` they share the presence key `"unknown"`, the second
registration overwriting the first one's directory entry. -/
theorem C10_register_defaults_and_overwrite :
    (∀ (pres : Presence) (m : MsgView) (sock : Nat) (addr : String × Nat),
        (registerOp pres m sock addr).2 = m.userId?.getD "unknown" ∧
        dictLookup (registerOp pres m sock addr).1 (m.userId?.getD "unknown")
          = some ⟨m.name?.getD "Unknown", m.mode?.getD "GREEN", sock, addr⟩) ∧
    (∀ (pres : Presence) (s1 : Nat) (a1 : String × Nat) (s2 : Nat) (a2 : String × Nat),
        (registerOp pres emptyMsg s1 a1).2 = "unknown" ∧
        (registerOp (registerOp pres emptyMsg s1 a1).1 emptyMsg s2 a2).2 = "unknown" ∧
        dictLookup (registerOp (registerOp pres emptyMsg s1 a1).1 emptyMsg s2 a2).1
            "unknown" = some ⟨"Unknown", "GREEN", s2, a2⟩) := by
  constructor
  · intro pres m sock addr
    exact ⟨rfl, dictLookup_dictInsert_self pres (m.userId?.getD "unknown") _⟩
  · intro pres s1 a1 s2 a2
    refine ⟨rfl, rfl, ?_⟩
    exact dictLookup_dictInsert_self _ "unknown" _

-- ── C3: UDP_REGISTER effect and datagram forwarding ────────────────

theorem udpRelayStep_append_no_match (pre rest : Rooms) (data : List Nat)
    (a : String × Nat)
    (h : ∀ p ∈ pre, slotMatches p.2.udp_addrs.1 a = false ∧
                    slotMatches p.2.udp_addrs.2 a = false) :
    udpRelayStep (pre ++ rest) data a = udpRelayStep rest data a := by
  induction pre with
  | nil => rfl
  | cons q t ih =>
    obtain ⟨k, room⟩ := q
    have hq := h (k, room) (List.mem_cons_self _ _)
    simp only [List.cons_append, udpRelayStep]
    rw [if_neg (by simp [hq.1]), if_neg (by simp [hq.2])]
    exact ih (fun p hp => h p (List.mem_cons_of_mem _ hp))

/-- C3 (claim theorem). (1) In a paired room, a frame from the member at
slot `i` that parses as `UDP_REGISTER` updates only that member's UDP slot
— to the member's stream source IP plus the declared `udp_port` — and is
not forwarded to the peer; every other room is untouched and the other slot
of the pair is preserved.  (2) A datagram from the endpoint registered in
slot 0 (of the first room matching the sender, mirroring the relay's scan)
is forwarded verbatim to slot 1's endpoint when populated and dropped when
slot 1 is empty; (3) symmetrically for a sender registered in slot 1. -/
theorem C3_udp_register_and_datagram_forwarding :
    (∀ (rs : Rooms) (code : String) (i : Fin 2) (ip : String) (f : TcpFrame)
        (m : MsgView) (room : Room),
        f.parsed = some m → m.type? = some "UDP_REGISTER" →
        dictLookup rs code = some room →
        (relayStep rs code i ip f).2 = none ∧
        dictLookup (relayStep rs code i ip f).1 code
          = some { room with udp_addrs := setSlot room.udp_addrs i (ip, m.udpPort?) } ∧
        (∀ c2, c2 ≠ code →
            dictLookup (relayStep rs code i ip f).1 c2 = dictLookup rs c2) ∧
        (i = 0 → (setSlot room.udp_addrs i (ip, m.udpPort?)).2 = room.udp_addrs.2) ∧
        (i = 1 → (setSlot room.udp_addrs i (ip, m.udpPort?)).1 = room.udp_addrs.1)) ∧
    (∀ (pre rest : Rooms) (k : String) (room : Room) (data : List Nat)
        (a : String × Nat),
        (∀ p ∈ pre, slotMatches p.2.udp_addrs.1 a = false ∧
                    slotMatches p.2.udp_addrs.2 a = false) →
        room.udp_addrs.1 = some (a.1, some a.2) →
        ((∀ e, room.udp_addrs.2 = some e →
            udpRelayStep (pre ++ (k, room) :: rest) data a = some (e, data)) ∧
         (room.udp_addrs.2 = none →
            udpRelayStep (pre ++ (k, room) :: rest) data a = none))) ∧
    (∀ (pre rest : Rooms) (k : String) (room : Room) (data : List Nat)
        (a : String × Nat),
        (∀ p ∈ pre, slotMatches p.2.udp_addrs.1 a = false ∧
                    slotMatches p.2.udp_addrs.2 a = false) →
        slotMatches room.udp_addrs.1 a = false →
        room.udp_addrs.2 = some (a.1, some a.2) →
        ((∀ e, room.udp_addrs.1 = some e →
            udpRelayStep (pre ++ (k, room) :: rest) data a = some (e, data)) ∧
         (room.udp_addrs.1 = none →
            udpRelayStep (pre ++ (k, room) :: rest) data a = none))) := by
  refine ⟨?_, ?_, ?_⟩
  · intro rs code i ip f m room hf hty hroom
    have hstep : relayStep rs code i ip f
        = (udpRegisterUpdate rs code i ip m.udpPort?, none) := by
      simp only [relayStep, hf]
      rw [if_pos hty]
    have hupd : udpRegisterUpdate rs code i ip m.udpPort?
        = dictInsert rs code
            { room with udp_addrs := setSlot room.udp_addrs i (ip, m.udpPort?) } := by
      unfold udpRegisterUpdate
      rw [hroom]
    refine ⟨by rw [hstep], ?_, ?_, ?_, ?_⟩
    · rw [hstep]
      show dictLookup (udpRegisterUpdate rs code i ip m.udpPort?) code = _
      rw [hupd]
      exact dictLookup_dictInsert_self rs code _
    · intro c2 hc2
      rw [hstep]
      show dictLookup (udpRegisterUpdate rs code i ip m.udpPort?) c2 = _
      rw [hupd]
      exact dictLookup_dictInsert_ne rs code c2 _ hc2
    · intro hi; rw [hi]; unfold setSlot; rw [if_pos rfl]
    · intro hi; rw [hi]; unfold setSlot; rw [if_neg (by decide : ¬ (1 : Fin 2) = 0)]
  · intro pre rest k room data a hpre hslot
    have hskip := udpRelayStep_append_no_match pre ((k, room) :: rest) data a hpre
    have hmatch : slotMatches room.udp_addrs.1 a = true := by
      rw [hslot]; simp [slotMatches]
    constructor
    · intro e he
      rw [hskip]
      simp only [udpRelayStep]
      rw [if_pos hmatch, he]
    · intro he
      rw [hskip]
      simp only [udpRelayStep]
      rw [if_pos hmatch, he]
  · intro pre rest k room data a hpre hfst hslot
    have hskip := udpRelayStep_append_no_match pre ((k, room) :: rest) data a hpre
    have hmatch : slotMatches room.udp_addrs.2 a = true := by
      rw [hslot]; simp [slotMatches]
    constructor
    · intro e he
      rw [hskip]
      simp only [udpRelayStep]
      rw [if_neg (by simp [hfst]), if_pos hmatch, he]
    · intro he
      rw [hskip]
      simp only [udpRelayStep]
      rw [if_neg (by simp [hfst]), if_pos hmatch, he]

/-- C3 witness: in a one-room registry, member 0's `UDP_REGISTER` with
port 777 is absorbed (not forwarded) and rewrites only slot 0; a datagram
from slot 0's endpoint is forwarded verbatim to slot 1 when it is
populated, and dropped when it is not. -/
theorem C3_udp_register_witness :
    (relayStep [("OH-AB12", roomBothSlots)] "OH-AB12" 0 "9.9.9.9" regFrame777).2
      = none ∧
    dictLookup (relayStep [("OH-AB12", roomBothSlots)] "OH-AB12" 0 "9.9.9.9"
        regFrame777).1 "OH-AB12"
      = some { roomBothSlots with
               udp_addrs := setSlot roomBothSlots.udp_addrs 0 ("9.9.9.9", some 777) } ∧
    udpRelayStep ([] ++ ("OH-AB12", roomBothSlots) :: []) [5, 6] ("1.1.1.1", 10)
      = some (("2.2.2.2", some 20), [5, 6]) ∧
    udpRelayStep ([] ++ ("OH-AB12", roomOneSlot) :: []) [5, 6] ("1.1.1.1", 10)
      = none := by
  have h1 := C3_udp_register_and_datagram_forwarding.1
    [("OH-AB12", roomBothSlots)] "OH-AB12" 0 "9.9.9.9" regFrame777 regMsg777
    roomBothSlots rfl rfl (by decide)
  have h2 := C3_udp_register_and_datagram_forwarding.2.1
    [] [] "OH-AB12" roomBothSlots [5, 6] ("1.1.1.1", 10)
    (by intro p hp; simp at hp) rfl
  have h3 := C3_udp_register_and_datagram_forwarding.2.1
    [] [] "OH-AB12" roomOneSlot [5, 6] ("1.1.1.1", 10)
    (by intro p hp; simp at hp) rfl
  exact ⟨h1.1, h1.2.1, h2.1 ("2.2.2.2", some 20) rfl, h3.2 rfl⟩

-- ── C4: direct-mode connect sets connected on socket open ──────────

/-- C4 counterexample: the claim says a direct dial becomes `Connected`
only after the `CONNECTION_REQUEST`/`CONNECTION_ACCEPTED` exchange, and
that an open socket alone does not make the manager connected.  In
`NetworkManager.connect` the `connected` flag is set the moment
`socket.connect` succeeds — the function performs no control exchange at
all (it has no handshake input to depend on) — so from the initial state a
successful dial is already `connected`. -/
theorem C4_direct_connect_counterexample :
    (NM_connect initNM "10.0.0.7" true).1.connected = true ∧
    (NM_connect initNM "10.0.0.7" true).1.relay_mode = false ∧
    (NM_connect initNM "10.0.0.7" true).2 = true := by
  decide

/-- C4 (amended claim theorem). In direct (LAN) mode the manager's
`connected` flag is set immediately upon a successful stream dial, before
any application-level request/accept exchange (which `main.py` performs
separately and which does not gate the flag): a successful `connect` from a
non-connected state sets `connected`, `relay_mode := false` and records the
peer IP; a failed dial leaves the state unchanged; a dial while already
connected is skipped; and an inbound accept likewise marks the manager
connected at once, while an inbound dial during an active connection is
rejected with no state change. -/
theorem C4_direct_connect_on_socket_open :
    (∀ (st : NMState) (ip : String), st.connected = false →
        NM_connect st ip true
          = ({ st with connected := true, relay_mode := false, peer_ip := some ip }, true)) ∧
    (∀ (st : NMState) (ip : String), st.connected = false →
        NM_connect st ip false = (st, false)) ∧
    (∀ (st : NMState) (ip : String) (dialOk : Bool), st.connected = true →
        NM_connect st ip dialOk = (st, true)) ∧
    (∀ (st : NMState) (ip : String), st.connected = false →
        NM_accept_tcp st ip
          = ({ st with connected := true, relay_mode := false, peer_ip := some ip }, true)) ∧
    (∀ (st : NMState) (ip : String), st.connected = true →
        NM_accept_tcp st ip = (st, false)) := by
  refine ⟨?_, ?_, ?_, ?_, ?_⟩
  · intro st ip h
    unfold NM_connect
    rw [if_neg (by simp [h]), if_pos rfl]
  · intro st ip h
    unfold NM_connect
    rw [if_neg (by simp [h]), if_neg (by simp)]
  · intro st ip dialOk h
    unfold NM_connect
    rw [if_pos h]
  · intro st ip h
    unfold NM_accept_tcp
    rw [if_neg (by simp [h])]
  · intro st ip h
    unfold NM_accept_tcp
    rw [if_pos h]

/-- C4 witness: the amended behaviour evaluated from the initial state and
from an already-connected state. -/
theorem C4_direct_connect_witness :
    NM_connect initNM "10.0.0.7" true = (⟨true, false, some "10.0.0.7"⟩, true) ∧
    NM_connect initNM "10.0.0.7" false = (initNM, false) ∧
    NM_connect ⟨true, false, some "10.0.0.9"⟩ "10.0.0.7" true
      = (⟨true, false, some "10.0.0.9"⟩, true) ∧
    NM_accept_tcp initNM "10.0.0.8" = (⟨true, false, some "10.0.0.8"⟩, true) ∧
    NM_accept_tcp ⟨true, false, some "10.0.0.9"⟩ "10.0.0.8"
      = (⟨true, false, some "10.0.0.9"⟩, false) :=
  ⟨C4_direct_connect_on_socket_open.1 initNM "10.0.0.7" rfl,
   C4_direct_connect_on_socket_open.2.1 initNM "10.0.0.7" rfl,
   C4_direct_connect_on_socket_open.2.2.1 ⟨true, false, some "10.0.0.9"⟩ "10.0.0.7" true rfl,
   C4_direct_connect_on_socket_open.2.2.2.1 initNM "10.0.0.8" rfl,
   C4_direct_connect_on_socket_open.2.2.2.2 ⟨true, false, some "10.0.0.9"⟩ "10.0.0.8" rfl⟩

-- ── C7: the HELLO token is filtered by the client, not the server ──

/-- C7 counterexample: the claim says the server's UDP relay loop treats a
datagram equal to the handshake token as a probe and does not forward it,
even when the sender matches a registered slot and the other slot is
populated.  `udp_relay_loop` never inspects the payload: with both slots
registered, `b"HELLO"` from slot 0's endpoint is forwarded to slot 1 like
any other datagram. -/
theorem C7_hello_forwarded_by_server_counterexample :
    udpRelayStep [("OH-AB12", roomBothSlots)] helloToken ("1.1.1.1", 10)
      = some (("2.2.2.2", some 20), helloToken) := by
  decide

/-- C7 (amended claim theorem). The server's UDP relay loop does not
special-case the handshake token — its forwarding decision is independent
of the payload, so `b"HELLO"` is relayed like any datagram.  The token is
filtered client-side instead: `_listen_relay_udp` skips a datagram equal to
`b"HELLO"` without delivering it to the audio callback, and delivers every
other datagram unchanged (so the probe still arrives via the same receive
path but is never surfaced as data). -/
theorem C7_hello_filtered_client_side :
    listenRelayUdpStep helloToken = none ∧
    (∀ data : List Nat, data ≠ helloToken → listenRelayUdpStep data = some data) ∧
    (∀ (rs : Rooms) (a : String × Nat) (d1 d2 : List Nat),
        (udpRelayStep rs d1 a).map Prod.fst = (udpRelayStep rs d2 a).map Prod.fst) := by
  refine ⟨by simp [listenRelayUdpStep], ?_, ?_⟩
  · intro data h
    simp [listenRelayUdpStep, h]
  · intro rs a d1 d2
    induction rs with
    | nil => rfl
    | cons q t ih =>
      obtain ⟨k, room⟩ := q
      simp only [udpRelayStep]
      by_cases h1 : slotMatches room.udp_addrs.1 a = true
      · rw [if_pos h1, if_pos h1]
        cases room.udp_addrs.2 <;> rfl
      · rw [if_neg h1, if_neg h1]
        by_cases h2 : slotMatches room.udp_addrs.2 a = true
        · rw [if_pos h2, if_pos h2]
          cases room.udp_addrs.1 <;> rfl
        · rw [if_neg h2, if_neg h2]
          exact ih

/-- C7 witness: a non-token datagram is delivered to the audio callback. -/
theorem C7_hello_witness :
    listenRelayUdpStep [1, 2, 3] = some [1, 2, 3] :=
  C7_hello_filtered_client_side.2.1 [1, 2, 3] (by decide)

-- ── C8: protocol errors on a connection's first frame ──────────────

/-- C8 counterexample: the claim says an unparseable first frame gets an
`error` status reply before the close.  `handle_client` closes the
connection silently in that case (`except: client_sock.close(); return` —
no frame is sent): on a concrete unparseable frame the router's outcome is
`closedSilently`, not an error reply. -/
theorem C8_unparseable_counterexample :
    handle_client_step [] [] 5 ("1.2.3.4", 40000) ⟨[255], none⟩
      = ([], [], .closedSilently) ∧
    (handle_client_step [] [] 5 ("1.2.3.4", 40000) ⟨[255], none⟩).2.2.isErrorReply
      = false := by
  decide

/-- C8 (amended claim theorem). On a new connection whose first frame does
not parse, the router closes the connection with no reply (no error frame
is sent, contrary to the claim); on a first frame carrying an unknown
action it replies with an `error` status frame and closes.  In both cases
the presence directory and the room registry are returned unchanged, so no
other connection or shared state is affected. -/
theorem C8_first_frame_error_handling :
    (∀ (pres : Presence) (rs : Rooms) (sock : Nat) (addr : String × Nat)
        (raw : List Nat),
        handle_client_step pres rs sock addr ⟨raw, none⟩
          = (pres, rs, .closedSilently)) ∧
    (∀ (pres : Presence) (rs : Rooms) (sock : Nat) (addr : String × Nat)
        (f : TcpFrame) (m : MsgView),
        f.parsed = some m →
        m.action? ≠ some "REGISTER" → m.action? ≠ some "CREATE_ROOM" →
        m.action? ≠ some "JOIN_ROOM" →
        handle_client_step pres rs sock addr f = (pres, rs, .errorReply m.action?)) := by
  constructor
  · intro pres rs sock addr raw
    rfl
  · intro pres rs sock addr f m hf h1 h2 h3
    simp only [handle_client_step, hf]
    rw [if_neg h1]
    rw [if_neg (by intro hor; rcases hor with h | h; exact h2 h; exact h3 h)]

/-- C8 witness: a first frame with the unknown action `"BOGUS"` yields the
error reply with shared state untouched. -/
theorem C8_first_frame_witness :
    handle_client_step [] [] 5 ("1.2.3.4", 40000)
        ⟨[2], some ⟨some "BOGUS", none, none, none, none, none, none, none⟩⟩
      = ([], [], .errorReply (some "BOGUS")) :=
  C8_first_frame_error_handling.2 [] [] 5 ("1.2.3.4", 40000)
    ⟨[2], some ⟨some "BOGUS", none, none, none, none, none, none, none⟩⟩
    ⟨some "BOGUS", none, none, none, none, none, none, none⟩
    rfl (by decide) (by decide) (by decide)
